import Mathlib

/-!
# Verification of the mcp_agent_mail notification core

Shallow embedding of the server-side SSE broadcaster
(`src/mcp_agent_mail/sse.py`) and of the watcher client
(`scripts/watch_mail.py`): the dedup guard, the sink dispatcher of
`_handle_event`, the buffer-file sink, the file-polling adapter and the
SSE reconnect/backoff loop.  Queues are lists with head = oldest element;
mtimes are naturals (only their order matters); the streaming backoff
delay is a rational (every reachable delay value, a product of 1 and
powers of 3/2 capped at 30, is exactly representable in binary floating
point, so ℚ is a faithful model of the float arithmetic involved).
-/

namespace AgentMail

/-! ## Broadcaster queues (`sse.py`, `NotificationBroadcaster`)

`subscribe` allocates `asyncio.Queue(maxsize=50)`.  `broadcast` runs, for
each queue of the key: `if q.full(): q.get_nowait()` (drop oldest,
`QueueEmpty` suppressed) then `q.put_nowait(event)` (a `QueueFull` would
be swallowed by the surrounding `except Exception: pass`). -/

/-- Queue capacity: `asyncio.Queue(maxsize=50)` in `subscribe`. -/
def queueMaxsize : Nat := 50

/-- `q.full()` for an `asyncio.Queue`: size has reached `maxsize`. -/
def fullQ {E : Type} (q : List E) : Bool := queueMaxsize ≤ q.length

/-- `q.get_nowait()` under `contextlib.suppress(asyncio.QueueEmpty)`:
removes the oldest element; on an empty queue the exception is suppressed
and nothing changes. -/
def getNowaitDrop {E : Type} (q : List E) : List E := q.drop 1

/-- `q.put_nowait(e)`: appends at the tail unless the queue is full; a
`QueueFull` is swallowed by the `except Exception: pass` of `broadcast`,
leaving the queue unchanged. -/
def putNowait {E : Type} (q : List E) (e : E) : List E :=
  if fullQ q then q else q ++ [e]

/-- The per-queue effect of `NotificationBroadcaster.broadcast`: drop the
oldest pending element when full, then enqueue the new one. -/
def broadcastToQueue {E : Type} (q : List E) (e : E) : List E :=
  putNowait (if fullQ q then getNowaitDrop q else q) e

/-! ## Channel registry (`sse.py`, `self._channels`)

`_channels` maps `(project_slug, agent_name)` to a list of queues.  A
queue is identified by its object identity (`q is not queue` in the
teardown filter); we model a queue as a pair of a numeric identity and
its contents. -/

/-- Routing key `(project_slug, agent_name)`. -/
abbrev ChanKey : Type := String × String

/-- A subscriber queue: object identity paired with pending contents. -/
abbrev Chan (E : Type) : Type := Nat × List E

/-- The registry `self._channels`, as an insertion-ordered mapping. -/
abbrev Channels (E : Type) : Type := List (ChanKey × List (Chan E))

/-- `self._channels[key] = value` for a key already present. -/
def setKey {E : Type} (k : ChanKey) (v : List (Chan E)) (m : Channels E) :
    Channels E :=
  m.map fun e => if e.1 = k then (e.1, v) else e

/-- `del self._channels[key]`. -/
def delKey {E : Type} (k : ChanKey) (m : Channels E) : Channels E :=
  m.filter fun e => !(e.1 = k)

/-- Registration half of `subscribe`: `if key not in self._channels:
self._channels[key] = []` then `self._channels[key].append(queue)`, the
fresh queue being empty. -/
def subscribeReg {E : Type} (k : ChanKey) (qid : Nat) (m : Channels E) :
    Channels E :=
  match m.lookup k with
  | none => m ++ [(k, [(qid, ([] : List E))])]
  | some l => setKey k (l ++ [(qid, ([] : List E))]) m

/-- Teardown half of `subscribe` (its `finally` block): remove the
handle's queue from the key's list, and drop the key when the list
becomes empty. -/
def teardownReg {E : Type} (k : ChanKey) (qid : Nat) (m : Channels E) :
    Channels E :=
  match m.lookup k with
  | none => m
  | some l =>
    let l' := l.filter fun q => !(q.1 = qid)
    if l'.isEmpty then delKey k m else setKey k l' m

/-- `NotificationBroadcaster.broadcast`: look up the queues of
`(event.project, event.agent)`; with none (absent key or empty list)
return at once; otherwise apply the drop-oldest enqueue to each queue. -/
def broadcastReg {E : Type} (k : ChanKey) (ev : E) (m : Channels E) :
    Channels E :=
  match m.lookup k with
  | none => m
  | some l =>
    if l.isEmpty then m
    else setKey k (l.map fun q => (q.1, broadcastToQueue q.2 ev)) m

/-- The registry invariant of the spec: every key present in the mapping
holds a non-empty list of live queues. -/
def nonemptyInv {E : Type} (m : Channels E) : Prop :=
  ∀ e ∈ m, e.2 ≠ []

instance {E : Type} (m : Channels E) : Decidable (nonemptyInv m) :=
  decidable_of_iff (∀ e ∈ m, e.2.isEmpty = false) (by
    simp [nonemptyInv, List.isEmpty_iff])

/-! ## Dedup guard (`watch_mail.py`, `_is_duplicate`)

The two module globals `_last_seen_message_id` (initially `0`) and
`_last_seen_timestamp` (initially `""`) are gathered in a state record;
Python truthiness of the `int` is `≠ 0` and of the `str` is `≠ ""`. -/

/-- `_last_seen_message_id` and `_last_seen_timestamp`. -/
structure DedupState where
  lastId : Nat
  lastTs : String
deriving DecidableEq, Repr

/-- Initial module state: id `0`, timestamp `""`. -/
def dedupInit : DedupState := ⟨0, ""⟩

/-- `_is_duplicate(message_id, timestamp)`: result flag paired with the
updated globals.  The guards mirror the source line by line:
`if message_id and message_id <= _last_seen_message_id`, then
`if timestamp and timestamp == _last_seen_timestamp and message_id ==
_last_seen_message_id`, then the two truthiness-guarded updates. -/
def isDuplicate (mid : Nat) (ts : String) (s : DedupState) :
    Bool × DedupState :=
  if mid ≠ 0 ∧ mid ≤ s.lastId then (true, s)
  else if ts ≠ "" ∧ ts = s.lastTs ∧ mid = s.lastId then (true, s)
  else
    (false,
      { lastId := if mid ≠ 0 then mid else s.lastId
        lastTs := if ts ≠ "" then ts else s.lastTs })

/-- A sequence of `_is_duplicate` calls, returning the flags in order and
the final globals. -/
def dedupRun (s : DedupState) : List (Nat × String) → List Bool × DedupState
  | [] => ([], s)
  | e :: es =>
    let r := isDuplicate e.1 e.2 s
    let rest := dedupRun r.2 es
    (r.1 :: rest.1, rest.2)

/-- The duplicate predicate in the words of the spec sentence: non-zero
id at or below the high-water mark, or timestamp equal to the last-seen
timestamp with id equal to the last-seen id (no non-emptiness guard on
the timestamp).  Kept separate from `isDuplicate` for comparison. -/
def specDuplicate (mid : Nat) (ts : String) (s : DedupState) : Bool :=
  decide ((mid ≠ 0 ∧ mid ≤ s.lastId) ∨ (ts = s.lastTs ∧ mid = s.lastId))

/-! ## Sink dispatcher (`watch_mail.py`, `_handle_event`)

`_handle_event` runs the dedup guard, prints the raw signal when no sink
is configured, and otherwise invokes the enabled sinks in a fixed order:
`_dev_notify`, `_auto_fetch`, `_run_on_notify`, `_update_buffer_file`,
`_write_sentinel`.  The last four wrap their bodies in
`try/except` blocks that print the error; `_dev_notify` has no handler,
and `_handle_event` does not wrap any sink call, so an exception there
escapes the handler.  Each sink body is modelled by a flag saying whether
it raises when invoked; a caught failure is recorded in the action. -/

/-- Which sinks are enabled for the run (the CLI flags). -/
structure SinkFlags where
  devNotify : Bool
  autoFetch : Bool
  onNotify : Bool
  bufferFile : Bool
  sentinelFile : Bool
deriving DecidableEq, Repr

/-- Whether each sink's body raises an exception when invoked. -/
structure SinkRaises where
  dev : Bool
  fetch : Bool
  hook : Bool
  buffer : Bool
  sentinel : Bool
deriving DecidableEq, Repr

/-- Observable outcome of one sink invocation (`failed` = the body
raised and the sink's own `except` caught and reported it). -/
inductive SinkAct where
  | rawSignal : SinkAct
  | devAlert : SinkAct
  | fetched (failed : Bool) : SinkAct
  | hookLaunched (failed : Bool) : SinkAct
  | bufferUpdated (failed : Bool) : SinkAct
  | sentinelWritten (failed : Bool) : SinkAct
deriving DecidableEq, Repr

/-- `_handle_event`: dedup guard, raw-signal fallback, then the five
sinks in source order.  `Except.error ()` is an exception escaping the
handler — which happens exactly when the unguarded `_dev_notify` body
raises. -/
def handleEvent (flags : SinkFlags) (r : SinkRaises) (mid : Nat)
    (ts : String) (s : DedupState) :
    Except Unit (DedupState × List SinkAct) :=
  let d := isDuplicate mid ts s
  if d.1 then .ok (d.2, [])
  else if !(flags.devNotify || flags.autoFetch || flags.onNotify ||
      flags.bufferFile || flags.sentinelFile) then
    .ok (d.2, [.rawSignal])
  else if flags.devNotify && r.dev then .error ()
  else
    .ok (d.2,
      (if flags.devNotify then [SinkAct.devAlert] else []) ++
      (if flags.autoFetch then [SinkAct.fetched r.fetch] else []) ++
      (if flags.onNotify then [SinkAct.hookLaunched r.hook] else []) ++
      (if flags.bufferFile then [SinkAct.bufferUpdated r.buffer] else []) ++
      (if flags.sentinelFile then [SinkAct.sentinelWritten r.sentinel]
       else []))

/-! ## Buffer-file sink (`watch_mail.py`, `_update_buffer_file`)

The file is modelled as `Option String` (`none` = absent).  Python's
`str.splitlines` (the file content only ever holds `\n` line breaks) and
the substring test `pat in s` are implemented by structural recursion so
that every theorem evaluates inside the kernel. -/

/-- Helper for `splitlines`: current tail and reversed current line. -/
def splitlinesAux : List Char → List Char → List (List Char)
  | [], acc => [acc.reverse]
  | c :: rest, acc =>
    if c = '\n' then
      acc.reverse :: (if rest.isEmpty then [] else splitlinesAux rest [])
    else splitlinesAux rest (c :: acc)

/-- Python `s.splitlines()` for `\n`-separated content: the final line
break produces no trailing empty line, and `"".splitlines() == []`. -/
def splitlines (s : String) : List String :=
  match s.data with
  | [] => []
  | cs => (splitlinesAux cs []).map fun l => ⟨l⟩

/-- Python `pat in s` substring containment. -/
def containsAt : List Char → List Char → Bool
  | p, [] => p.isPrefixOf []
  | p, c :: t => p.isPrefixOf (c :: t) || containsAt p t

/-- Python `pat in s` on strings. -/
def containsSubstring (pat s : String) : Bool := containsAt pat.data s.data

/-- Python `"\n".join(lines)`. -/
def joinlines : List String → String
  | [] => ""
  | l :: ls => if ls.isEmpty then l else l ++ "\n" ++ joinlines ls

/-- The header-detection marker of `_update_buffer_file`. -/
def headerMark : String := "# 🔔 Pending Agent Mail"

/-- The `header` literal of `_update_buffer_file`. -/
def bufferHeader : String :=
  headerMark ++ "\n\n" ++
  "*This file is automatically maintained by the watch_mail.py sidecar. " ++
  "Agents should check this file at the start of every session.*\n\n" ++
  "| Agent | Project | From | Subject | Importance | Received | ID |\n" ++
  "| :--- | :--- | :--- | :--- | :--- | :--- | :--- |\n"

/-- The `row` f-string of `_update_buffer_file` — note the trailing
newline, present in the written row but never in a `splitlines` result. -/
def bufferRow (agent project sender subject importance ts msgId : String) :
    String :=
  "| " ++ agent ++ " | " ++ project ++ " | " ++ sender ++ " | " ++
  subject ++ " | " ++ importance ++ " | " ++ ts ++ " | " ++ msgId ++ " |\n"

/-- `_update_buffer_file` acting on the file state: rewrite header + row
when the file is absent or its first line lacks the marker, else append
the row unless `row in lines` (`lines` being the `splitlines` result). -/
def updateBufferFile (file : Option String) (row : String) : Option String :=
  match file with
  | none => some (bufferHeader ++ row)
  | some content =>
    let lines := splitlines content
    if lines.isEmpty || !containsSubstring headerMark (lines.headD "") then
      some (bufferHeader ++ row)
    else if !(lines.contains row) then
      some (joinlines lines ++ "\n" ++ row)
    else some content

/-! ## File-polling adapter (`watch_mail.py`, `_watch_file_polling`)

One loop iteration ("tick") observes the signal file as
`Option (mtime × content)`; `parse` stands for
`json.loads ∘ read_text` — `none` when reading or parsing raises, in
which case the handler is not called and the error is printed.  The
source assigns `last_mtime = current_mtime` *before* the `try` block that
reads and parses. -/

/-- The `last_mtime` local of `_watch_file_polling`. -/
structure PollState where
  lastMtime : Nat
deriving DecidableEq, Repr

/-- One iteration of the polling `while` loop: no file or a
non-increased mtime is a no-op; an increased mtime first records the new
mtime, then delivers the parsed envelope (`none` = read/parse raised,
caught and logged). -/
def pollTick {Env : Type} (parse : String → Option Env) (s : PollState)
    (file : Option (Nat × String)) : PollState × Option Env :=
  match file with
  | none => (s, none)
  | some (m, content) =>
    if s.lastMtime < m then (⟨m⟩, parse content)
    else (s, none)

/-- A sequence of polling ticks, collecting each tick's delivery. -/
def pollRun {Env : Type} (parse : String → Option Env) (s : PollState) :
    List (Option (Nat × String)) → PollState × List (Option Env)
  | [] => (s, [])
  | f :: fs =>
    let r := pollTick parse s f
    let rest := pollRun parse r.1 fs
    (rest.1, r.2 :: rest.2)

/-! ## SSE reconnect backoff (`watch_mail.py`, `_watch_sse`)

One iteration of the outer `while True` ends in one of three observable
ways: the HTTP response was not 200 (`sleep(retry_delay)` then
`continue`, skipping the update at the bottom of the loop); the
connection attempt raised (`httpx.ConnectError` and friends), reaching
`sleep(retry_delay)` then `retry_delay = min(30.0, retry_delay * 1.5)`;
or the connection succeeded — `retry_delay = 1.0` — and the stream later
ended or dropped, reaching the same bottom-of-loop sleep and update with
the freshly reset delay. -/

/-- Outcome of one connection attempt of the `_watch_sse` loop. -/
inductive SseOutcome where
  | non200 : SseOutcome
  | connectFail : SseOutcome
  | connectedThenDrop : SseOutcome
deriving DecidableEq, Repr

/-- The bottom-of-loop update of `_watch_sse`:
`retry_delay = min(30.0, retry_delay * 1.5)`. -/
def capGrow (rd : ℚ) : ℚ := min 30 (rd * (3 / 2))

/-- Effect of one loop iteration on `retry_delay`: the sleep performed
and the delay left for the next iteration.  The `non200` branch is the
`continue` path, which sleeps but never reaches the update; the
`connectedThenDrop` branch resets the delay to `1.0` on the successful
connection before sleeping and updating. -/
def backoffStep (rd : ℚ) : SseOutcome → ℚ × ℚ
  | .non200 => (rd, rd)
  | .connectFail => (rd, capGrow rd)
  | .connectedThenDrop => (1, capGrow 1)

/-- A run of loop iterations: the sleeps observed, in order, and the
final `retry_delay`. -/
def backoffRun (rd : ℚ) : List SseOutcome → List ℚ × ℚ
  | [] => ([], rd)
  | o :: os =>
    let r := backoffStep rd o
    let rest := backoffRun r.2 os
    (r.1 :: rest.1, rest.2)

/-- Whether an `Except` result of `_handle_event` is a normal return
(no exception escaped the handler). -/
def exceptOk {α : Type} : Except Unit α → Bool
  | .ok _ => true
  | .error _ => false

/-- The sink actions of a normal `_handle_event` return (empty when an
exception escaped). -/
def okActs : Except Unit (DedupState × List SinkAct) → List SinkAct
  | .ok p => p.2
  | .error _ => []

/-! ## Queue lemmas -/

/-- A non-full queue grows by appending at the tail. -/
lemma broadcastToQueue_of_lt {E : Type} (q : List E) (e : E)
    (h : q.length < queueMaxsize) : broadcastToQueue q e = q ++ [e] := by
  have hf : fullQ q = false := by
    simp [fullQ, Nat.not_le.2 h]
  simp [broadcastToQueue, putNowait, hf]

/-- A full queue loses its oldest element, then gains the new one. -/
lemma broadcastToQueue_of_full {E : Type} (q : List E) (e : E)
    (h : q.length = queueMaxsize) :
    broadcastToQueue q e = q.drop 1 ++ [e] := by
  have hf : fullQ q = true := by simp [fullQ, h]
  have hf' : fullQ q.tail = false := by
    simp [fullQ, List.length_tail, h, queueMaxsize]
  simp [broadcastToQueue, putNowait, getNowaitDrop, hf, hf', List.drop_one]

/-- Folding `broadcastToQueue` over publishes keeps the suffix of the
combined history that fits in the capacity. -/
lemma foldl_broadcastToQueue {E : Type} (es : List E) :
    ∀ q : List E, q.length ≤ queueMaxsize →
      es.foldl broadcastToQueue q =
        (q ++ es).drop (q.length + es.length - queueMaxsize) := by
  induction es with
  | nil =>
    intro q h
    simp [Nat.sub_eq_zero_of_le h]
  | cons e es ih =>
    intro q h
    rcases lt_or_eq_of_le h with hlt | heq
    · have h1 : (q ++ [e]).length ≤ queueMaxsize := by
        simp; omega
      have := ih (q ++ [e]) h1
      rw [List.foldl_cons, broadcastToQueue_of_lt q e hlt, this]
      have harr : (q ++ [e]) ++ es = q ++ e :: es := by simp
      rw [harr]
      congr 1
      simp; omega
    · have hq : q.length = queueMaxsize := heq
      have hne : 1 ≤ q.length := by rw [hq]; norm_num [queueMaxsize]
      have h1 : (q.drop 1 ++ [e]).length ≤ queueMaxsize := by
        simp [List.length_drop]; omega
      have := ih (q.drop 1 ++ [e]) h1
      rw [List.foldl_cons, broadcastToQueue_of_full q e hq, this]
      have harr : (q.drop 1 ++ [e]) ++ es = q.drop 1 ++ e :: es := by simp
      rw [harr]
      have hidx : (q.drop 1 ++ [e]).length + es.length - queueMaxsize
          = es.length := by
        simp [List.length_drop]; omega
      rw [hidx]
      have hidx2 : q.length + (e :: es).length - queueMaxsize
          = es.length + 1 := by
        simp [hq]
      rw [hidx2]
      have hdrop1 : (q ++ e :: es).drop 1 = q.drop 1 ++ e :: es := by
        rw [List.drop_append_eq_append_drop]
        have : 1 - q.length = 0 := by omega
        simp [this]
      rw [show es.length + 1 = 1 + es.length by omega, ← List.drop_drop,
        hdrop1]

/-- C1: publishing to a subscribed queue never blocks (it is a total
function of the queue), enqueues at the tail below capacity, discards
the oldest at capacity, and a subscriber that consumes nothing observes
exactly the `queueMaxsize` most recent envelopes of any longer publish
sequence, in publish order. -/
theorem claim_C1_drop_oldest {E : Type} (es : List E) :
    es.foldl broadcastToQueue [] = es.drop (es.length - queueMaxsize) ∧
    (es.foldl broadcastToQueue []).length = min queueMaxsize es.length ∧
    (∀ q : List E, ∀ e : E, q.length < queueMaxsize →
      broadcastToQueue q e = q ++ [e]) ∧
    (∀ q : List E, ∀ e : E, q.length = queueMaxsize →
      broadcastToQueue q e = q.drop 1 ++ [e]) := by
  have hfold := foldl_broadcastToQueue es []
    (by simp)
  refine ⟨?_, ?_, fun q e h => broadcastToQueue_of_lt q e h,
    fun q e h => broadcastToQueue_of_full q e h⟩
  · simpa using hfold
  · have : es.foldl broadcastToQueue [] = es.drop (es.length - queueMaxsize) := by
      simpa using hfold
    rw [this, List.length_drop]
    omega

/-- Witness for C1: 51 publishes of `0, 1, …, 50` leave the 50 most
recent envelopes `1, …, 50`, and a publish to a full queue of
`0, …, 49` drops the oldest and appends. -/
theorem claim_C1_drop_oldest_witness :
    (List.range 51).foldl broadcastToQueue [] = (List.range 51).drop 1 ∧
    broadcastToQueue (List.range 50) 50 = (List.range 50).drop 1 ++ [50] := by
  constructor
  · have h := (claim_C1_drop_oldest (List.range 51)).1
    simpa [queueMaxsize] using h
  · exact (claim_C1_drop_oldest ([] : List Nat)).2.2.2 (List.range 50) 50
      (by simp [queueMaxsize])

/-! ## Dedup guard theorems -/

/-- C2 (corrected): at the initial state an event with id `0` and empty
timestamp is reported novel by the code although the claim's rule
("timestamp equals the last-seen timestamp and message_id equals the
last-seen message_id") classifies it as duplicate; and a novel event
with empty timestamp does not replace the stored timestamp although the
claim says the high-water marks are raised to the new values. -/
theorem claim_C2_counterexample :
    (isDuplicate 0 "" dedupInit).1 = false ∧
    specDuplicate 0 "" dedupInit = true ∧
    (isDuplicate 7 "" ⟨5, "x"⟩).1 = false ∧
    (isDuplicate 7 "" ⟨5, "x"⟩).2.lastTs = "x" := by
  decide

/-- C2 (amended): `_is_duplicate` returns `True` exactly when the id is
non-zero and at most the high-water mark, or the timestamp is non-empty
and equals the last-seen timestamp while the id equals the last-seen id;
a duplicate leaves the state unchanged, the id mark never regresses, a
novel non-zero id becomes the new mark, a novel non-empty timestamp
replaces the stored one, and on ids `[5, 5, 6, 5, 7]` with distinct
timestamps calls 2 and 4 are duplicates, the rest novel, with final
mark 7. -/
theorem claim_C2_dedup_guard (mid : Nat) (ts : String) (s : DedupState) :
    ((isDuplicate mid ts s).1 = true ↔
      ((mid ≠ 0 ∧ mid ≤ s.lastId) ∨
        (ts ≠ "" ∧ ts = s.lastTs ∧ mid = s.lastId))) ∧
    ((isDuplicate mid ts s).1 = true → (isDuplicate mid ts s).2 = s) ∧
    s.lastId ≤ (isDuplicate mid ts s).2.lastId ∧
    ((isDuplicate mid ts s).1 = false → mid ≠ 0 →
      (isDuplicate mid ts s).2.lastId = mid) ∧
    ((isDuplicate mid ts s).1 = false → ts ≠ "" →
      (isDuplicate mid ts s).2.lastTs = ts) ∧
    dedupRun dedupInit [(5, "a"), (5, "b"), (6, "c"), (5, "d"), (7, "e")]
      = ([false, true, false, true, false], ⟨7, "e"⟩) := by
  refine ⟨?_, ?_, ?_, ?_, ?_, by decide⟩
  · unfold isDuplicate
    split_ifs with h1 h2
    · simp [h1]
    · simp [h2]
      try exact Or.inr (h2.2.1 ▸ h2.1)
    · constructor
      · intro h; simp at h
      · intro h
        rcases h with h | h
        · exact absurd h h1
        · exact absurd h h2
  · unfold isDuplicate
    split_ifs <;> simp_all
  · unfold isDuplicate
    split_ifs <;> simp_all <;> omega
  · unfold isDuplicate
    split_ifs <;> simp_all
  · unfold isDuplicate
    split_ifs <;> simp_all

/-- Witness for C2: a fresh id above the mark is novel and becomes the
new mark. -/
theorem claim_C2_dedup_guard_witness :
    (isDuplicate 6 "b" ⟨5, "a"⟩).2.lastId = 6 := by
  have h := claim_C2_dedup_guard 6 "b" ⟨5, "a"⟩
  exact h.2.2.2.1 (by decide) (by decide)

/-- C9: an event with id `0` and empty timestamp is always reported
novel and leaves both marks untouched, so an unbounded run of such
events is never deduplicated. -/
theorem claim_C9_idless_events (s : DedupState) :
    isDuplicate 0 "" s = (false, s) ∧
    ∀ n : Nat,
      (dedupRun s (List.replicate n (0, ""))).1 = List.replicate n false := by
  have hstep : isDuplicate 0 "" s = (false, s) := by
    simp [isDuplicate]
  refine ⟨hstep, ?_⟩
  intro n
  induction n with
  | zero => rfl
  | succ n ih =>
    simp [List.replicate_succ, dedupRun, hstep, ih]

/-! ## Sink dispatcher theorems -/

/-- C3 (counterexample): for a non-duplicate event with all sinks
enabled, an exception in the alert sink (`_dev_notify`, which has no
`try/except` and is not wrapped by `_handle_event`) escapes the handler,
so none of the other four sinks runs. -/
theorem claim_C3_counterexample :
    handleEvent ⟨true, true, true, true, true⟩
      ⟨true, false, false, false, false⟩ 5 "t" dedupInit = .error () ∧
    (isDuplicate 5 "t" dedupInit).1 = false := by
  exact ⟨rfl, by decide⟩

/-- C3 (amended): whenever the alert sink does not raise (it is disabled
or its body succeeds), no exception escapes `_handle_event`, and every
enabled sink is invoked for a non-duplicate event — a failure inside
auto-fetch, the hook command, the buffer-file or the sentinel-file sink
is caught and reported by that sink and does not prevent any sibling
sink from running. -/
theorem claim_C3_sink_isolation (flags : SinkFlags) (r : SinkRaises)
    (mid : Nat) (ts : String) (s : DedupState)
    (hdev : flags.devNotify = true → r.dev = false) :
    exceptOk (handleEvent flags r mid ts s) = true ∧
    ((isDuplicate mid ts s).1 = false →
      (flags.devNotify = true →
        SinkAct.devAlert ∈ okActs (handleEvent flags r mid ts s)) ∧
      (flags.autoFetch = true →
        SinkAct.fetched r.fetch ∈ okActs (handleEvent flags r mid ts s)) ∧
      (flags.onNotify = true →
        SinkAct.hookLaunched r.hook ∈ okActs (handleEvent flags r mid ts s)) ∧
      (flags.bufferFile = true →
        SinkAct.bufferUpdated r.buffer ∈
          okActs (handleEvent flags r mid ts s)) ∧
      (flags.sentinelFile = true →
        SinkAct.sentinelWritten r.sentinel ∈
          okActs (handleEvent flags r mid ts s))) := by
  obtain ⟨f1, f2, f3, f4, f5⟩ := flags
  obtain ⟨rd, rf, rh, rb, rs⟩ := r
  simp only at hdev
  cases hd : (isDuplicate mid ts s).1 <;>
    cases f1 <;> cases f2 <;> cases f3 <;> cases f4 <;> cases f5 <;>
      simp_all [handleEvent, exceptOk, okActs]

/-- Witness for C3: with the alert sink healthy and the four guarded
sinks all raising, the handler returns normally and the auto-fetch
failure is still recorded alongside its siblings. -/
theorem claim_C3_sink_isolation_witness :
    exceptOk (handleEvent ⟨true, true, true, true, true⟩
      ⟨false, true, true, true, true⟩ 5 "t" dedupInit) = true ∧
    SinkAct.fetched true ∈ okActs (handleEvent ⟨true, true, true, true, true⟩
      ⟨false, true, true, true, true⟩ 5 "t" dedupInit) := by
  have h := claim_C3_sink_isolation ⟨true, true, true, true, true⟩
    ⟨false, true, true, true, true⟩ 5 "t" dedupInit (fun _ => rfl)
  exact ⟨h.1, (h.2 (by decide)).2.1 rfl⟩

/-! ## Registry theorems -/

/-- `setKey` only rewrites the value stored at the given key. -/
lemma nonemptyInv_setKey {E : Type} {m : Channels E} (k : ChanKey)
    {v : List (Chan E)} (hm : nonemptyInv m) (hv : v ≠ []) :
    nonemptyInv (setKey k v m) := by
  intro e he
  obtain ⟨a, ha, rfl⟩ := List.mem_map.1 he
  by_cases hk : a.1 = k
  · simpa [hk] using hv
  · simpa [hk] using hm a ha

/-- `delKey` only removes entries. -/
lemma nonemptyInv_delKey {E : Type} {m : Channels E} (k : ChanKey)
    (hm : nonemptyInv m) : nonemptyInv (delKey k m) := by
  intro e he
  exact hm e (List.mem_of_mem_filter he)

/-- `self._channels[key] = value` is observed by a lookup of that key. -/
lemma lookup_setKey {E : Type} (k : ChanKey) (v : List (Chan E))
    (m : Channels E) (h : (m.lookup k).isSome = true) :
    (setKey k v m).lookup k = some v := by
  induction m with
  | nil => simp [List.lookup] at h
  | cons e m ih =>
    by_cases hk : e.1 = k
    · have hb : (k == e.1) = true := by simp [hk]
      simp only [setKey, List.map_cons, if_pos hk]
      simp [List.lookup, hb]
    · have hb : (k == e.1) = false := by
        simp only [beq_eq_false_iff_ne, ne_eq]
        exact fun hkk => hk hkk.symm
      simp only [setKey, List.map_cons, if_neg hk] at *
      simp only [List.lookup, hb] at h ⊢
      exact ih h

/-- After `del self._channels[key]` the key is gone. -/
lemma lookup_delKey {E : Type} (k : ChanKey) (m : Channels E) :
    (delKey k m).lookup k = none := by
  induction m with
  | nil => rfl
  | cons e m ih =>
    by_cases hk : e.1 = k
    · simpa [delKey, hk] using ih
    · have hb : (k == e.1) = false := by
        simp [beq_eq_false_iff_ne]
        exact fun h => hk h.symm
      simpa [delKey, hk, List.lookup, hb] using ih

/-- C5: broadcasting to a key with no live subscription returns without
error and leaves the whole registry — every other key and every existing
queue — unchanged. -/
theorem claim_C5_broadcast_no_subscribers {E : Type} (k : ChanKey) (ev : E)
    (m : Channels E) (h : m.lookup k = none) :
    broadcastReg k ev m = m := by
  simp [broadcastReg, h]

/-- Witness for C5: a publish to an unsubscribed key leaves a registry
with one other populated key untouched. -/
theorem claim_C5_broadcast_no_subscribers_witness :
    List.lookup (("q", "b") : ChanKey)
      [((("p", "a") : ChanKey), [(0, [7])])] = none ∧
    broadcastReg (("q", "b") : ChanKey) (9 : Nat)
      [((("p", "a") : ChanKey), [(0, [7])])]
      = [((("p", "a") : ChanKey), [(0, [7])])] :=
  ⟨by decide,
    claim_C5_broadcast_no_subscribers ("q", "b") 9 _ (by decide)⟩

/-- C6: from any registry in which every present key has a non-empty
queue list, each completed `subscribe` registration, teardown and
`broadcast` preserves that invariant, and a teardown removing the last
queue of its key removes the key itself from the mapping. -/
theorem claim_C6_registry_invariant {E : Type} (m : Channels E)
    (k : ChanKey) (qid : Nat) (ev : E) (hm : nonemptyInv m) :
    nonemptyInv (subscribeReg k qid m) ∧
    nonemptyInv (teardownReg k qid m) ∧
    nonemptyInv (broadcastReg k ev m) ∧
    (∀ l, m.lookup k = some l →
      (l.filter fun q => !(q.1 = qid)).isEmpty = false →
      (teardownReg k qid m).lookup k
        = some (l.filter fun q => !(q.1 = qid))) ∧
    (∀ l, m.lookup k = some l →
      (l.filter fun q => !(q.1 = qid)).isEmpty = true →
      (teardownReg k qid m).lookup k = none) := by
  refine ⟨?_, ?_, ?_, ?_, ?_⟩
  · unfold subscribeReg
    cases hl : m.lookup k with
    | none =>
      intro e he
      rcases List.mem_append.1 he with h | h
      · exact hm e h
      · simp at h
        simp [h]
    | some l =>
      exact nonemptyInv_setKey k hm (by simp)
  · unfold teardownReg
    cases hl : m.lookup k with
    | none => exact hm
    | some l =>
      by_cases he : (l.filter fun q => !(q.1 = qid)).isEmpty
      · simpa [he] using nonemptyInv_delKey k hm
      · simpa [he] using
          nonemptyInv_setKey k hm (by simpa [List.isEmpty_iff] using he)
  · unfold broadcastReg
    cases hl : m.lookup k with
    | none => exact hm
    | some l =>
      by_cases he : l.isEmpty
      · simpa [he] using hm
      · have hne : l.map (fun q => (q.1, broadcastToQueue q.2 ev)) ≠ [] := by
          simp [List.isEmpty_iff] at he
          simp [he]
        simpa [he] using nonemptyInv_setKey k hm hne
  · intro l hl hne
    simp only [teardownReg, hl, hne, Bool.false_eq_true, if_false]
    exact lookup_setKey k _ m (by simp [hl])
  · intro l hl hempty
    simp [teardownReg, hl, hempty, lookup_delKey]

/-- Witness for C6: a single-subscriber registry satisfies the
invariant, and tearing down that subscriber deletes its key. -/
theorem claim_C6_registry_invariant_witness :
    nonemptyInv [((("p", "a") : ChanKey), [(0, ([] : List Nat))])] ∧
    (teardownReg ("p", "a") 0
      [((("p", "a") : ChanKey), [(0, ([] : List Nat))])]).lookup ("p", "a")
      = none := by
  refine ⟨by decide, ?_⟩
  exact (claim_C6_registry_invariant
      [((("p", "a") : ChanKey), [(0, ([] : List Nat))])]
      ("p", "a") 0 (5 : Nat) (by decide)).2.2.2.2
    [(0, [])] (by decide) (by decide)

/-! ## SSE backoff theorems -/

/-- Consecutive exception-path failures iterate the capped growth on the
delay, sleeping the pre-update value each time. -/
lemma backoffRun_replicate_connectFail (n : Nat) :
    ∀ rd : ℚ, (backoffRun rd (List.replicate n .connectFail)).1 =
      (List.range n).map fun k => capGrow^[k] rd := by
  induction n with
  | zero => intro rd; simp [backoffRun]
  | succ n ih =>
    intro rd
    rw [List.replicate_succ, List.range_succ_eq_map]
    simp only [backoffRun, backoffStep, List.map_cons,
      Function.iterate_zero, id_eq, List.map_map]
    congr 1
    rw [ih (capGrow rd)]
    apply List.map_congr_left
    intro k _
    simp [Function.iterate_succ_apply]

/-- Starting from the reset delay, the `k`-th iterate of the capped
growth is exactly `min 30 ((3/2)^k)`. -/
lemma capGrow_iterate_one (k : Nat) :
    capGrow^[k] (1 : ℚ) = min 30 ((3 / 2 : ℚ) ^ k) := by
  induction k with
  | zero => norm_num
  | succ k ih =>
    rw [Function.iterate_succ_apply', ih]
    unfold capGrow
    rcases le_or_lt ((3 / 2 : ℚ) ^ k) 30 with h | h
    · rw [min_eq_right h, ← pow_succ]
    · have hp : (0 : ℚ) < (3 / 2 : ℚ) ^ k := by positivity
      rw [min_eq_left h.le]
      have hbig : (30 : ℚ) ≤ (3 / 2 : ℚ) ^ (k + 1) := by
        rw [pow_succ]
        nlinarith
      rw [min_eq_left hbig]
      norm_num

/-- C4 (counterexample): three consecutive non-success HTTP responses
take the `continue` path, so the observed delays are `1, 1, 1`, not the
`1, 1.5, 2.25` the claim states for every failure mode. -/
theorem claim_C4_counterexample :
    (backoffRun 1 [.non200, .non200, .non200]).1 = [1, 1, 1] ∧
    ([1, 1, 1] : List ℚ) ≠ [1, 3 / 2, 9 / 4] := by
  constructor
  · simp [backoffRun, backoffStep]
  · simp
    norm_num

/-- C4 (amended): for the exception-path failures — connection refused,
mid-stream disconnect, other stream errors — the delay before the
`(n+1)`-th consecutive failed attempt is `min 30 ((3/2)^(n-1))` starting
from the reset value; a non-success HTTP response sleeps the current
delay without growing it; and the delay is reset to `1` by every
successful (re)connection, so the iteration after a connected-then-drop
sleeps `1` and leaves `3/2`. -/
theorem claim_C4_backoff :
    (∀ n : Nat, (backoffRun 1 (List.replicate n .connectFail)).1 =
      (List.range n).map fun k => min 30 ((3 / 2 : ℚ) ^ k)) ∧
    (∀ rd : ℚ, backoffStep rd .non200 = (rd, rd)) ∧
    (∀ rd : ℚ, backoffStep rd .connectedThenDrop = (1, 3 / 2)) := by
  refine ⟨?_, fun rd => rfl, fun rd => ?_⟩
  · intro n
    rw [backoffRun_replicate_connectFail n 1]
    apply List.map_congr_left
    intro k _
    exact capGrow_iterate_one k
  · unfold backoffStep capGrow
    norm_num

/-! ## Buffer-file sink theorem -/

/-- C7: the source's `row not in lines` check compares the row *with*
its trailing newline against `splitlines` output *without* trailing
newlines, so it never detects the existing row: invoking the sink twice
with the same event appends the row a second time instead of leaving the
file unchanged.  This contradicts the code's own `Add as new row if not
already present` comment (and the spec); evaluated here at a concrete
event. -/
theorem claim_C7_buffer_duplicate_row :
    updateBufferFile (updateBufferFile none
        (bufferRow "A" "p" "Alice" "Re: x" "normal" "t1" "42"))
        (bufferRow "A" "p" "Alice" "Re: x" "normal" "t1" "42")
      = some (bufferHeader ++
          bufferRow "A" "p" "Alice" "Re: x" "normal" "t1" "42" ++
          bufferRow "A" "p" "Alice" "Re: x" "normal" "t1" "42") ∧
    updateBufferFile (updateBufferFile none
        (bufferRow "A" "p" "Alice" "Re: x" "normal" "t1" "42"))
        (bufferRow "A" "p" "Alice" "Re: x" "normal" "t1" "42")
      ≠ updateBufferFile none
        (bufferRow "A" "p" "Alice" "Re: x" "normal" "t1" "42") ∧
    (splitlines ((updateBufferFile (updateBufferFile none
        (bufferRow "A" "p" "Alice" "Re: x" "normal" "t1" "42"))
        (bufferRow "A" "p" "Alice" "Re: x" "normal" "t1" "42")).getD "")).count
      "| A | p | Alice | Re: x | normal | t1 | 42 |" = 2 := by
  set_option maxRecDepth 40000 in decide

/-! ## File-polling theorems -/

/-- Once `last_mtime` has been raised to `m`, ticks whose file (when
present) has mtime at most `m` deliver nothing and leave the state
unchanged. -/
lemma pollRun_no_delivery {Env : Type} (parse : String → Option Env)
    (m : Nat) (fs : List (Option (Nat × String)))
    (hb : ∀ f ∈ fs, ∀ m' c', f = some (m', c') → m' ≤ m) :
    pollRun parse ⟨m⟩ fs = (⟨m⟩, List.replicate fs.length none) := by
  induction fs with
  | nil => rfl
  | cons f fs ih =>
    have hstep : pollTick parse ⟨m⟩ f = (⟨m⟩, none) := by
      cases f with
      | none => rfl
      | some mc =>
        have := hb _ (List.mem_cons_self _ _) mc.1 mc.2 rfl
        simp [pollTick, Nat.not_lt.2 this]
    simp [pollRun, List.replicate_succ, hstep,
      ih fun f hf => hb f (List.mem_cons_of_mem _ hf)]

/-- C8 (counterexample): a tick where the signal file exists and its
mtime strictly exceeds the recorded one delivers nothing when the
content fails to parse, refuting "delivers … exactly when the signal
file exists and its modification time is strictly greater". -/
theorem claim_C8_counterexample :
    (pollTick (fun c => if c = "{}" then some 0 else (none : Option Nat))
      ⟨0⟩ (some (1, "not json"))).2 = none ∧
    (some ((1 : Nat), "not json")).isSome = true ∧ (0 : Nat) < 1 := by
  decide

/-- C8 (amended): a tick delivers an envelope exactly when the file
exists, its mtime strictly exceeds the recorded one, *and* its content
parses; a tick with no file or an unchanged mtime delivers nothing; and
one write with increased mtime and parsing content yields exactly one
delivery — the tick itself — followed by none over all subsequent ticks
whose observed mtimes do not exceed it. -/
theorem claim_C8_poll_delivery {Env : Type} (parse : String → Option Env)
    (s : PollState) (m : Nat) (c : String) (env : Env)
    (hm : s.lastMtime < m) (hp : parse c = some env) :
    (∀ file, (pollTick parse s file).2.isSome = true ↔
      ∃ m' c', file = some (m', c') ∧ s.lastMtime < m' ∧
        (parse c').isSome = true) ∧
    pollTick parse s (some (m, c)) = (⟨m⟩, some env) ∧
    (∀ fs : List (Option (Nat × String)),
      (∀ f ∈ fs, ∀ m' c', f = some (m', c') → m' ≤ m) →
      pollRun parse ⟨m⟩ fs = (⟨m⟩, List.replicate fs.length none)) := by
  refine ⟨?_, by simp [pollTick, hm, hp], pollRun_no_delivery parse m⟩
  intro file
  cases file with
  | none => simp [pollTick]
  | some mc =>
    obtain ⟨mm, cc⟩ := mc
    by_cases h : s.lastMtime < mm
    · simp only [pollTick, if_pos h]
      constructor
      · intro hps
        exact ⟨mm, cc, rfl, h, hps⟩
      · rintro ⟨m', c', he, hlt, hps⟩
        rw [show cc = c' from congrArg Prod.snd (Option.some.inj he)]
        exact hps
    · simp [pollTick, h]

/-- Witness for C8: with a parser accepting `{}`, a write at mtime 1
over recorded mtime 0 delivers once, and two later unchanged ticks
deliver nothing. -/
theorem claim_C8_poll_delivery_witness :
    pollTick (fun c => if c = "{}" then some 0 else (none : Option Nat))
      ⟨0⟩ (some (1, "{}")) = (⟨1⟩, some 0) ∧
    pollRun (fun c => if c = "{}" then some 0 else (none : Option Nat))
      ⟨1⟩ [some (1, "{}"), some (1, "{}")] = (⟨1⟩, [none, none]) := by
  have h := claim_C8_poll_delivery
    (fun c => if c = "{}" then some 0 else (none : Option Nat))
    ⟨0⟩ 1 "{}" 0 (by decide) (by decide)
  refine ⟨h.2.1, ?_⟩
  have h2 := h.2.2 [some (1, "{}"), some (1, "{}")] (by
    intro f hf m' c' he
    simp at hf
    rw [hf] at he
    simp at he
    omega)
  simpa using h2

/-- C10: `last_mtime` is assigned before the read-and-parse, so a write
whose content fails to parse is consumed — the tick delivers nothing,
the recorded mtime becomes the file's, and every later tick delivers
nothing until the mtime grows again. -/
theorem claim_C10_parse_failure_not_retried {Env : Type}
    (parse : String → Option Env) (s : PollState) (m : Nat) (c : String)
    (hm : s.lastMtime < m) (hp : parse c = none) :
    pollTick parse s (some (m, c)) = (⟨m⟩, none) ∧
    (∀ fs : List (Option (Nat × String)),
      (∀ f ∈ fs, ∀ m' c', f = some (m', c') → m' ≤ m) →
      pollRun parse ⟨m⟩ fs = (⟨m⟩, List.replicate fs.length none)) :=
  ⟨by simp [pollTick, hm, hp], pollRun_no_delivery parse m⟩

/-- Witness for C10: an unparseable write at mtime 1 is skipped and two
later ticks at the same mtime stay silent. -/
theorem claim_C10_parse_failure_not_retried_witness :
    pollTick (fun c => if c = "{}" then some 0 else (none : Option Nat))
      ⟨0⟩ (some (1, "bad")) = (⟨1⟩, none) ∧
    pollRun (fun c => if c = "{}" then some 0 else (none : Option Nat))
      ⟨1⟩ [some (1, "bad"), none] = (⟨1⟩, [none, none]) := by
  have h := claim_C10_parse_failure_not_retried
    (fun c => if c = "{}" then some 0 else (none : Option Nat))
    ⟨0⟩ 1 "bad" (by decide) (by decide)
  refine ⟨h.1, ?_⟩
  have h2 := h.2 [some (1, "bad"), none] (by
    intro f hf m' c' he
    simp at hf
    rcases hf with hh | hh
    · rw [hh] at he
      simp at he
      omega
    · rw [hh] at he
      simp at he)
  simpa using h2

end AgentMail
